import Mathlib

set_option maxRecDepth 16000

/-!
Verification development for the Project Lantern media server
(transcode and adaptive-streaming engine, src/main.py).

The Python source is shallowly embedded: pure helpers become Lean
functions, the global registry of active transcode processes becomes an
association list threaded through the handlers, subprocess and
filesystem interactions become explicit parameters (probe outcomes,
observed file sizes, directory-existence oracles) and an explicit trace
of side effects.  Machine integers of the source are modelled as
Nat/Int.
-/

/-! ## Codec prober (probe_media_file, main.py lines 299-321)

The external ffprobe invocation is modelled by a `RawProbe` value: either
the parsed JSON payload (a possibly missing streams array of entries) or
one of the failure modes the source catches.  The returned dict
`codecs` (keys v and a, whose values may themselves be null) is the
structure `ProbeDict`.
-/

/-- One entry of the streams array in the parsed ffprobe JSON output:
each field may be absent. -/
structure StreamEntry where
  codec_type : Option String
  codec_name : Option String
  channels : Option Int
deriving DecidableEq, Repr

/-- Outcome of the ffprobe subprocess call, before probe_media_file
post-processes it.  The four failure constructors are the exception
types caught at main.py line 319; ok none models a JSON payload with no
streams key (or an empty payload), ok (some ss) a payload with a streams
array. -/
inductive RawProbe
  | ok (streams : Option (List StreamEntry))
  | calledProcessError
  | fileNotFound
  | jsonDecodeError
  | timeoutExpired
deriving DecidableEq, Repr

/-- True on the outcomes that the source handles in its except clause:
process failure, non-zero exit, unparsable output, timeout. -/
def RawProbe.isFailure : RawProbe → Bool
  | .ok _ => false
  | _ => true

/-- The value stored under key a of the codecs dict: codec name (may be
null in the JSON) and channel count (null channels were already replaced
by 6 at main.py line 316). -/
structure AudioEntry where
  name : Option String
  channels : Int
deriving DecidableEq, Repr

/-- The codecs dict built by probe_media_file: key v present iff
`v = some _` (its value may be null, hence Option (Option String)), key
a likewise. -/
structure ProbeDict where
  v : Option (Option String)
  a : Option AudioEntry
deriving DecidableEq, Repr

/-- The empty dict returned by probe_media_file on failure. -/
def emptyProbe : ProbeDict := ⟨none, none⟩

/-- Python truthiness of the codecs dict: empty iff neither key is
present. -/
def ProbeDict.isEmpty (p : ProbeDict) : Bool := p.v.isNone && p.a.isNone

/-- The stream loop of probe_media_file (main.py lines 308-317): the
first video stream fills key v with its codec name, the first audio
stream fills key a with name and channels (missing channels default
to 6). -/
def foldStreams : List StreamEntry → ProbeDict → ProbeDict
  | [], acc => acc
  | s :: rest, acc =>
    let acc2 :=
      if s.codec_type = some "video" ∧ acc.v = none then
        { acc with v := some s.codec_name }
      else if s.codec_type = some "audio" ∧ acc.a = none then
        { acc with a := some ⟨s.codec_name, (s.channels).getD 6⟩ }
      else acc
    foldStreams rest acc2

/-- probe_media_file (main.py lines 299-321): on any caught failure or
on a payload without stream data, return the empty dict instead of
raising; otherwise fold the streams array. -/
def probe_media_file : RawProbe → ProbeDict
  | .ok (some ss) => foldStreams ss emptyProbe
  | _ => emptyProbe

/-! ## Container extension (os.path.splitext on posix paths)

can_direct_play takes the extension of the file path, lowercased.  The
splitext semantics: the extension starts at the last dot of the
basename, provided some character of the basename strictly before that
dot is not itself a dot (so dotfiles such as .bashrc have no
extension). -/

/-- Characters of the basename: everything after the last slash. -/
def basename_chars (p : List Char) : List Char :=
  (p.reverse.takeWhile (fun c => c != '/')).reverse

/-- Extension of a basename, per os.path.splitext. -/
def ext_of_basename (b : List Char) : List Char :=
  let r := b.reverse
  let afterDot := r.takeWhile (fun c => c != '.')
  if afterDot.length = r.length then []
  else
    let pre := (r.drop (afterDot.length + 1)).reverse
    if pre.any (fun c => c != '.') then '.' :: afterDot.reverse else []

/-- os.path.splitext(path)[1] for posix paths. -/
def splitext_ext (p : String) : String :=
  String.mk (ext_of_basename (basename_chars p.data))

/-- os.path.splitext(path)[1].lower(): the container extension as
can_direct_play computes it at main.py line 324 (lowercasing applied
per character, which agrees with str.lower on ASCII extensions). -/
def container_of (p : String) : String :=
  String.mk ((ext_of_basename (basename_chars p.data)).map Char.toLower)

/-! ## Direct-play classifier (can_direct_play, main.py lines 323-343)

The source calls probe_media_file(path) internally; the embedding takes
the resulting codecs dict as an explicit parameter. -/

/-- The container allow-list written inline at main.py line 325. -/
def CAN_DIRECT_CONTAINERS : List String := [".mp4", ".m4v", ".webm"]

def SAFE_VIDEO_CODECS : List String := ["h264"]

def SAFE_AUDIO_CODECS : List String := ["aac", "mp3", "opus"]

def SAFE_AUDIO_CHANNELS : Int := 2

/-- video_ok of main.py line 338: codecs.get(v) is truthy and in the
allow-list.  An empty codec name is falsy in Python and also not in the
allow-list, so plain membership is equivalent. -/
def video_ok_of (codecs : ProbeDict) : Bool :=
  match codecs.v.join with
  | some vc => SAFE_VIDEO_CODECS.contains vc
  | none => false

/-- audio_ok of main.py line 339: audio codec truthy, in the allow-list,
channels present and at most 2.  When key a is present its channels
field is always an Int (see foldStreams), so the is-not-None check of
the source is subsumed by the match. -/
def audio_ok_of (codecs : ProbeDict) : Bool :=
  match codecs.a with
  | some e =>
    match e.name with
    | some ac => SAFE_AUDIO_CODECS.contains ac && decide (e.channels ≤ SAFE_AUDIO_CHANNELS)
    | none => false
  | none => false

/-- can_direct_play (main.py lines 323-343): container gate first, then
the empty-probe gate, then the codec checks.  codecs is the result of
probe_media_file on the same path. -/
def can_direct_play (path : String) (codecs : ProbeDict) : Bool :=
  let container := container_of path
  if CAN_DIRECT_CONTAINERS.contains container then
    if codecs.isEmpty then false
    else video_ok_of codecs && audio_ok_of codecs
  else false

/-! ## Segment readiness poller (wait_for_ready, main.py lines 242-266)

One poll of the loop body observes either the file size (some size,
os.path.exists true) or nothing (none, file absent; the source then
leaves stable_count and last_size untouched).  The whole run is driven
by a fuel parameter modelling the wall-clock timeout as a bound on the
number of polls; exhausting it is the FileNotFoundError timeout path,
returned as none.  A successful return carries the index of the poll at
which the segment was reported ready. -/

/-- Observed segment file sizes, one observation per poll tick. -/
abbrev SegObs := Nat → Option Nat

def MIN_SEG_BYTES : Nat := 32 * 1024

def STABILITY_CHECKS : Nat := 2

/-- The polling loop of wait_for_ready: state is the poll index, the
stable counter and last_size (initially -1).  On an existing file whose
size is at least MIN_SEG_BYTES and equal to last_size the counter is
bumped and, at STABILITY_CHECKS, the poll index is returned; any other
size resets the counter; an absent file changes nothing. -/
def wait_for_ready_run (obs : SegObs) : Nat → Nat → Nat → Int → Option Nat
  | 0, _, _, _ => none
  | fuel + 1, i, sc, last =>
    match obs i with
    | some size =>
      if MIN_SEG_BYTES ≤ size ∧ (size : Int) = last then
        if STABILITY_CHECKS ≤ sc + 1 then some i
        else wait_for_ready_run obs fuel (i + 1) (sc + 1) (size : Int)
      else wait_for_ready_run obs fuel (i + 1) 0 (size : Int)
    | none => wait_for_ready_run obs fuel (i + 1) sc last

/-- The size observed at the poll immediately preceding index i,
skipping polls at which the file was absent. -/
def lastSomeBefore (obs : SegObs) : Nat → Option Nat
  | 0 => none
  | n + 1 =>
    match obs n with
    | some s => some s
    | none => lastSomeBefore obs n

/-- The last_size variable value on entry to poll i: the previously
observed size, or the initial -1 when nothing was observed yet. -/
def lastObsD (obs : SegObs) (i : Nat) : Int :=
  match lastSomeBefore obs i with
  | some s => (s : Int)
  | none => -1

/-! ## Manifest builder (generate_vod_manifest, main.py lines 269-292)

The source fixes SEGMENT_DURATION_SEC = 10; the embedding keeps the
segment length as a parameter instantiated with that constant, so the
counting property can be stated for every positive length.  Each
manifest entry is the declared EXTINF duration paired with the segment
URI line. -/

def SEGMENT_DURATION_SEC : Int := 10

/-- One segment entry of the VOD manifest: the declared duration (an
integer in the embedding: duration_seconds and the segment length are
integers, so every computed duration is) and the URI line. -/
structure SegEntry where
  duration : Int
  uri : String
deriving DecidableEq, Repr

/-- math.ceil(duration / segLen) for integer inputs and positive
segLen, computed exactly (the float division of the source is exact at
media-duration magnitudes). -/
def num_segments (duration segLen : Int) : Int := (duration + segLen - 1) / segLen

/-- The manifest loop (main.py lines 283-290): n entries remaining,
next index i; the declared duration is clamped to the remainder and a
non-positive remainder breaks out of the loop. -/
def manifestSegLoop (duration segLen : Int) (token : String) : Nat → Nat → List SegEntry
  | 0, _ => []
  | n + 1, i =>
    let d := min segLen (duration - (i : Int) * segLen)
    if d ≤ 0 then []
    else
      ⟨d, "stream" ++ toString i ++ ".ts?token=" ++ token⟩ ::
        manifestSegLoop duration segLen token n (i + 1)

/-- The segment entries of generate_vod_manifest: range(num_segments)
driven through the loop. -/
def generate_vod_manifest_segments (duration segLen : Int) (token : String) : List SegEntry :=
  manifestSegLoop duration segLen token (num_segments duration segLen).toNat 0

/-! ## Range streamer and direct_stream range branch
(main.py lines 345-355 and 827-851)

The file content is a list of bytes; range_streamer reads chunks of at
most 2 MiB from position start until the requested span is exhausted or
the read comes back empty.  The fuel equals the requested span, which
bounds the iteration count since every yielded chunk is nonempty. -/

/-- The while loop of range_streamer. -/
def range_streamer_loop (content : List Nat) : Nat → Nat → Nat → List Nat
  | 0, _, _ => []
  | fuel + 1, pos, remaining =>
    if remaining = 0 then []
    else
      let chunkSize := min (1024 * 1024 * 2) remaining
      let data := (content.drop pos).take chunkSize
      if data.length = 0 then []
      else data ++ range_streamer_loop content fuel (pos + data.length) (remaining - data.length)

/-- range_streamer(file, start, end, size): stream the span start..end
inclusive. -/
def range_streamer (content : List Nat) (start e : Nat) : List Nat :=
  range_streamer_loop content (e + 1 - start) start (e + 1 - start)

/-- The two response shapes of the direct_stream range branch: 416 with
a Content-Range header, or 206 with Content-Range, Content-Length and
the streamed body. -/
inductive RangeResponse
  | r416 (contentRange : String)
  | r206 (contentRange : String) (contentLength : Nat) (body : List Nat)

/-- Constructor test used to state results about the range branch. -/
def RangeResponse.is206 : RangeResponse → Bool
  | .r206 _ _ _ => true
  | _ => false

/-- The Range-header branch of direct_stream (main.py lines 828-849):
start is the first regex group, endStr the optional second group; the
requested end is clamped to size - 1 (or defaulted to it when absent),
then the 416 validation runs on the clamped value. -/
def direct_range_response (content : List Nat) (start : Int) (endStr : Option Int) : RangeResponse :=
  let size : Int := content.length
  let e : Int :=
    match endStr with
    | some v => min v (size - 1)
    | none => size - 1
  if start > e ∨ start < 0 ∨ e ≥ size then
    .r416 ("bytes */" ++ toString size)
  else
    .r206 ("bytes " ++ toString start ++ "-" ++ toString e ++ "/" ++ toString size)
      (e - start + 1).toNat
      (range_streamer content start.toNat e.toNat)

/-! ## Audio argument construction (run_ffmpeg_sync, main.py lines 362-387) -/

/-- audio_codec_name at main.py line 366: codecs.get(a, empty).get(name). -/
def audio_codec_name_of (codecs : ProbeDict) : Option String :=
  match codecs.a with
  | some e => e.name
  | none => none

/-- audio_channels at main.py line 367: codecs.get(a, empty).get(channels, 2). -/
def audio_channels_of (codecs : ProbeDict) : Int :=
  match codecs.a with
  | some e => e.channels
  | none => 2

/-- The audio strategy (main.py lines 379-387): copy when the source is
already stereo-or-less AAC, otherwise re-encode to AAC with the channel
count capped at 6 (a zero count is lifted to 2 by the or-default) and a
bitrate of 128k per stereo pair, using Python floor division. -/
def audio_args (codecs : ProbeDict) : List String :=
  if audio_codec_name_of codecs = some "aac" ∧ audio_channels_of codecs ≤ 2 then
    ["-c:a", "copy"]
  else
    let target_channels : Int :=
      min (if audio_channels_of codecs = 0 then 2 else audio_channels_of codecs) 6
    let bitrate := toString (128 * target_channels.fdiv 2) ++ "k"
    ["-c:a", "aac", "-b:a", bitrate, "-ac", toString target_channels]

/-! ## Session registry and the stream orchestrator
(active_processes, start_stream, stop_stream, run_ffmpeg_sync;
main.py lines 42, 940-1083, 1085-1108, 481-509)

active_processes is a dict from media id to a record holding the
process handle (None until Popen succeeds) and the HLS output
directory; it is modelled as an association list with dict semantics
(insert replaces, delete removes the key).  Side effects of the
handlers are collected in an explicit trace. -/

/-- One registry entry: whether the process handle is set, and the HLS
output directory. -/
structure ProcInfo where
  hasProcess : Bool
  dir : String
deriving DecidableEq, Repr

abbrev Registry := List (Nat × ProcInfo)

/-- Dict lookup: active_processes.get(k). -/
def lookupKey (k : Nat) : Registry → Option ProcInfo
  | [] => none
  | e :: rest => if e.1 = k then some e.2 else lookupKey k rest

/-- Dict deletion: del active_processes[k] (also the pop of a present
key). -/
def eraseKey (k : Nat) : Registry → Registry
  | [] => []
  | e :: rest => if e.1 = k then eraseKey k rest else e :: eraseKey k rest

/-- Dict insertion: active_processes[k] = v.  Dict keys are unique, so
insertion replaces any entry for k. -/
def insertKey (k : Nat) (v : ProcInfo) (reg : Registry) : Registry :=
  eraseKey k reg ++ [(k, v)]

/-- Number of entries for key k; at most one in any registry built by
the dict operations. -/
def countKey (k : Nat) : Registry → Nat
  | [] => 0
  | e :: rest => (if e.1 = k then 1 else 0) + countKey k rest

/-- Side effects performed by the handlers, in program order.
terminateProc records proc.terminate() followed by proc.wait with the
given grace period in seconds and proc.kill() on expiry; waitReady
records a call to wait_for_ready on the given path. -/
inductive Effect
  | terminateProc (movieId : Nat) (graceSeconds : Nat)
  | removeDir (dir : String)
  | makeDir (dir : String)
  | registerSession (movieId : Nat) (dir : String)
  | writeManifest (path : String)
  | launchEncoder (movieId : Nat)
  | waitReady (path : String)
deriving DecidableEq, Repr

def Effect.isWaitReady : Effect → Bool
  | .waitReady _ => true
  | _ => false

def Effect.isRegister : Effect → Bool
  | .registerSession _ _ => true
  | _ => false

def Effect.isMakeDir : Effect → Bool
  | .makeDir _ => true
  | _ => false

def Effect.isLaunch : Effect → Bool
  | .launchEncoder _ => true
  | _ => false

/-- Response of the stream endpoint: the direct branch (main.py lines
1019-1024) or the HLS branch (lines 1077-1083). -/
inductive StreamResult
  | direct (url : String) (duration : Int) (softSub : Option String)
  | hls (playlistUrl : String) (crf : Int) (scale : String) (duration : Int)
      (softSub : Option String)
deriving DecidableEq, Repr

/-- The full outcome of a start_stream call: the registry afterwards,
the effect trace, and either an HTTP error status or a response. -/
structure StreamOutcome where
  registry : Registry
  trace : List Effect
  result : Except Nat StreamResult

def StreamOutcome.resultIsHls (o : StreamOutcome) : Bool :=
  match o.result with
  | .ok (.hls _ _ _ _ _) => true
  | _ => false

/-- The HTTP error status of the outcome, when it is an error. -/
def StreamOutcome.errorStatus (o : StreamOutcome) : Option Nat :=
  match o.result with
  | .error c => some c
  | .ok _ => none

/-- Query parameters of GET /stream as start_stream receives them. -/
structure StreamParams where
  movieId : Nat
  seekTime : Int
  preferDirect : Bool
  forceTranscode : Bool
  quality : String
  scale : String
  subtitleId : Option Nat
  burn : Bool
  itemType : String
  token : String

/-- External collaborators of start_stream, fixed per request: the DB
row for the item (filepath and duration), the DB row for the requested
subtitle, whether the subtitle file exists on disk, the probe result of
the video file, an existence oracle for the old HLS directory, and the
time-derived session id. -/
structure StreamEnv where
  item : Option (String × Int)
  subRow : Option String
  subFileExists : Bool
  probe : ProbeDict
  oldDirExists : String → Bool
  sessionId : String

def QUALITY_PRESETS : List (String × Int) := [("low", 28), ("medium", 23), ("high", 18)]

def RESOLUTION_PRESETS : List (String × Option Int) :=
  [("source", none), ("1080p", some 1080), ("720p", some 720),
   ("480p", some 480), ("360p", some 360)]

/-- Digits of a decimal literal folded into a number; none when the
list is empty or holds a non-digit. -/
def parseDigits : List Char → Nat → Option Nat
  | [], acc => some acc
  | c :: rest, acc =>
    if c.isDigit then parseDigits rest (acc * 10 + (c.toNat - 48)) else none

/-- Python int(s) on a plain decimal literal with an optional sign
(the whitespace and underscore tolerance of int() is irrelevant to the
query strings at hand). -/
def python_int_of (s : String) : Option Int :=
  match s.data with
  | [] => none
  | '-' :: rest =>
    match rest with
    | [] => none
    | _ => (parseDigits rest 0).map (fun n => -(n : Int))
  | '+' :: rest =>
    match rest with
    | [] => none
    | _ => (parseDigits rest 0).map (fun n => (n : Int))
  | cs => (parseDigits cs 0).map (fun n => (n : Int))

/-- The crf computation at main.py lines 1029-1031: preset value, or
the quality string parsed as an integer, or a 400 (none). -/
def crfOf (q : String) : Option Int :=
  match QUALITY_PRESETS.lookup q with
  | some c => some c
  | none => python_int_of q

/-- Preemption of an existing session (main.py lines 949-966): pop the
entry, terminate its process when the handle is set (terminate, wait
with a 5 second grace, kill on expiry), and remove its output
directory when it exists on disk. -/
def preempt (reg : Registry) (oldDirExists : String → Bool) (movieId : Nat) :
    Registry × List Effect :=
  match lookupKey movieId reg with
  | some info =>
    (eraseKey movieId reg,
      (if info.hasProcess then [Effect.terminateProc movieId 5] else []) ++
        (if oldDirExists info.dir then [Effect.removeDir info.dir] else []))
  | none => (reg, [])

/-- The filesystem and registry effects of creating the new session
(main.py lines 1043-1073): mkdir, register the entry with a null
process handle, write the full VOD manifest, schedule run_ffmpeg_sync. -/
def sessionEffects (movieId : Nat) (hlsDir : String) : List Effect :=
  [Effect.makeDir hlsDir, Effect.registerSession movieId hlsDir,
   Effect.writeManifest (hlsDir ++ "/stream.m3u8"), Effect.launchEncoder movieId]

/-- start_stream (main.py lines 940-1083).  In program order: preempt
any existing session for the id; look the item up (404 when absent);
resolve the subtitle row when requested (404 when absent, burn forces
transcode and 404s when the file is missing on disk, otherwise a soft
subtitle URL is built); serve direct when not forced to transcode,
direct play is preferred, scale is source and can_direct_play holds;
otherwise validate quality (400) and scale (400), then create and
register the new session directory, write the manifest and schedule the
encoder, returning the playlist URL immediately. -/
def start_stream (reg : Registry) (env : StreamEnv) (p : StreamParams) : StreamOutcome :=
  let pr := preempt reg env.oldDirExists p.movieId
  match env.item with
  | none => ⟨pr.1, pr.2, .error 404⟩
  | some (videoPath, duration) =>
    let subStep : Except Nat (Bool × Option String × Option String) :=
      match p.subtitleId with
      | none => .ok (p.forceTranscode, none, none)
      | some _ =>
        match env.subRow with
        | none => .error 404
        | some fullSubPath =>
          if p.burn then
            if env.subFileExists then .ok (true, some fullSubPath, none)
            else .error 404
          else
            .ok (p.forceTranscode, none,
              some ("/static/" ++ fullSubPath ++ "?token=" ++ p.token))
    match subStep with
    | .error c => ⟨pr.1, pr.2, .error c⟩
    | .ok (forceT, _burnSubPath, softSubUrl) =>
      if (!forceT && p.preferDirect && (p.scale == "source") &&
          can_direct_play videoPath env.probe) then
        ⟨pr.1, pr.2,
          .ok (.direct
            ("/direct/" ++ toString p.movieId ++ "?token=" ++ p.token ++
              (if p.itemType == "episode" then "&item_type=episode" else ""))
            duration softSubUrl)⟩
      else
        match crfOf p.quality with
        | none => ⟨pr.1, pr.2, .error 400⟩
        | some crf =>
          match RESOLUTION_PRESETS.lookup p.scale with
          | none => ⟨pr.1, pr.2, .error 400⟩
          | some _targetHeight =>
            let hlsDir := "static/hls/" ++ toString p.movieId ++ "/" ++ env.sessionId
            ⟨insertKey p.movieId ⟨false, hlsDir⟩ pr.1,
              pr.2 ++ sessionEffects p.movieId hlsDir,
              .ok (.hls
                ("/static/hls/" ++ toString p.movieId ++ "/" ++ env.sessionId ++
                  "/stream.m3u8?token=" ++ p.token)
                crf p.scale duration softSubUrl)⟩

/-! ## Encoder supervision (run_ffmpeg_sync, main.py lines 481-509)

Only the registry manipulation of the try/except/finally block is
relevant to the registered-session invariant: on a successful Popen the
entry is set with the live process handle; a FileNotFoundError from
Popen leaves the registry untouched until the finally block; the
finally block always deletes the entry for the id when present. -/

/-- How the supervised encoder run ended. -/
inductive EncodeOutcome
  | exited (code : Int)
  | launchFailedNotFound
  | errorAfterLaunch
deriving DecidableEq, Repr

/-- The registry transitions of run_ffmpeg_sync: registration after a
successful Popen, then unconditional cleanup in the finally block. -/
def run_ffmpeg_sync_registry (reg : Registry) (movieId : Nat) (dir : String)
    (outcome : EncodeOutcome) : Registry :=
  match outcome with
  | .exited _ => eraseKey movieId (insertKey movieId ⟨true, dir⟩ reg)
  | .launchFailedNotFound => eraseKey movieId reg
  | .errorAfterLaunch => eraseKey movieId (insertKey movieId ⟨true, dir⟩ reg)

/-! ## Gated static serving (HLSStaticFiles.get_response, main.py
lines 608-626): requests for .ts paths run wait_for_ready first and a
timeout becomes a 404 instead of a served file. -/

inductive ServeOutcome
  | notReady404
  | serveFile
deriving DecidableEq, Repr

/-- True when the second list is read off at the front of the first. -/
def leadingMatch : List Char → List Char → Bool
  | [], _ => true
  | _ :: _, [] => false
  | a :: as, b :: bs => a == b && leadingMatch as bs

/-- str.endswith(suffix) over the character lists. -/
def str_ends_with (s suffix : String) : Bool :=
  leadingMatch suffix.data.reverse s.data.reverse

/-- The get_response override: .ts paths are gated on
wait_for_ready (modelled by wait_for_ready_run on the observations for
that path); everything else is served directly. -/
def hls_get_response (path : String) (obs : SegObs) (fuel : Nat) : ServeOutcome :=
  if str_ends_with path ".ts" then
    match wait_for_ready_run obs fuel 0 0 (-1) with
    | none => .notReady404
    | some _ => .serveFile
  else .serveFile

/-! ## Registry lemmas -/

theorem lookupKey_eraseKey (k : Nat) (reg : Registry) :
    lookupKey k (eraseKey k reg) = none := by
  induction reg with
  | nil => rfl
  | cons a t ih =>
    by_cases h : a.1 = k
    · simpa [eraseKey, h] using ih
    · simpa [eraseKey, lookupKey, h] using ih

theorem lookupKey_insertKey_self (k : Nat) (v : ProcInfo) (reg : Registry) :
    lookupKey k (insertKey k v reg) = some v := by
  unfold insertKey
  induction reg with
  | nil => simp [eraseKey, lookupKey]
  | cons a t ih =>
    by_cases h : a.1 = k
    · simpa [eraseKey, h] using ih
    · simpa [eraseKey, lookupKey, h] using ih

theorem countKey_eraseKey_self (k : Nat) (reg : Registry) :
    countKey k (eraseKey k reg) = 0 := by
  induction reg with
  | nil => rfl
  | cons a t ih =>
    by_cases h : a.1 = k
    · simpa [eraseKey, h] using ih
    · simpa [eraseKey, countKey, h] using ih

theorem countKey_append (k : Nat) (l1 l2 : Registry) :
    countKey k (l1 ++ l2) = countKey k l1 + countKey k l2 := by
  induction l1 with
  | nil => simp [countKey]
  | cons a t ih => simp [countKey, ih]; ring

theorem countKey_insertKey_self (k : Nat) (v : ProcInfo) (reg : Registry) :
    countKey k (insertKey k v reg) = 1 := by
  unfold insertKey
  rw [countKey_append, countKey_eraseKey_self]
  simp [countKey]

theorem countP_preempt (p : Effect → Bool)
    (hT : ∀ m g, p (Effect.terminateProc m g) = false)
    (hR : ∀ d, p (Effect.removeDir d) = false)
    (reg : Registry) (f : String → Bool) (m : Nat) :
    (preempt reg f m).2.countP p = 0 := by
  unfold preempt
  cases lookupKey m reg with
  | none => rfl
  | some info =>
    simp only [List.countP_append]
    have h1 : (if info.hasProcess then [Effect.terminateProc m 5] else []).countP p = 0 := by
      split <;> simp [List.countP_cons, hT]
    have h2 : (if f info.dir then [Effect.removeDir info.dir] else []).countP p = 0 := by
      split <;> simp [List.countP_cons, hR]
    simp [h1, h2]

theorem lookupKey_preempt_self (reg : Registry) (f : String → Bool) (m : Nat) :
    lookupKey m (preempt reg f m).1 = none := by
  unfold preempt
  cases hl : lookupKey m reg with
  | none => simpa using hl
  | some info => simpa using lookupKey_eraseKey m reg

/-! ## C3: container gate of the direct-play classifier -/

/-- C3.  For every file whose container extension (lowercased, per
os.path.splitext) is outside the mp4/m4v/webm allow-list,
can_direct_play returns false whatever the codec probe reported: the
probe result cannot make such a file DIRECT. -/
theorem c3_container_forces_transcode (path : String) (codecs : ProbeDict)
    (h : CAN_DIRECT_CONTAINERS.contains (container_of path) = false) :
    can_direct_play path codecs = false := by
  have h2 : container_of path ∉ CAN_DIRECT_CONTAINERS := by simpa using h
  simp [can_direct_play, h2]

/-- C3 witness: an mkv file with perfectly safe codecs is still not
direct-playable. -/
theorem c3_witness :
    CAN_DIRECT_CONTAINERS.contains (container_of "/media/Show.S01E01.mkv") = false ∧
      can_direct_play "/media/Show.S01E01.mkv"
        ⟨some (some "h264"), some ⟨some "aac", 2⟩⟩ = false :=
  ⟨by decide, c3_container_forces_transcode _ _ (by decide)⟩

/-! ## C8: audio copy-versus-transcode strategy -/

/-- C8.  The audio stream is copied unmodified exactly when the probed
audio codec is aac and the channel count is at most 2; otherwise the
arguments re-encode to AAC with the channel count capped at 6 (zero
lifted to 2) and a bitrate of 128k per stereo pair of the capped
count. -/
theorem c8_audio_strategy (codecs : ProbeDict) :
    (audio_args codecs = ["-c:a", "copy"] ↔
      audio_codec_name_of codecs = some "aac" ∧ audio_channels_of codecs ≤ 2) ∧
    (¬ (audio_codec_name_of codecs = some "aac" ∧ audio_channels_of codecs ≤ 2) →
      audio_args codecs =
        ["-c:a", "aac",
         "-b:a", toString (128 *
            (min (if audio_channels_of codecs = 0 then 2 else audio_channels_of codecs) 6).fdiv 2)
           ++ "k",
         "-ac", toString
            (min (if audio_channels_of codecs = 0 then 2 else audio_channels_of codecs) 6)] ∧
      min (if audio_channels_of codecs = 0 then 2 else audio_channels_of codecs) 6 ≤ 6) := by
  unfold audio_args
  by_cases h : audio_codec_name_of codecs = some "aac" ∧ audio_channels_of codecs ≤ 2
  · simp [h]
  · simp [h, min_le_right]

/-- C8 witness: a 6-channel AC3 track is transcoded to 6-channel AAC at
384k, and a stereo AAC track is copied. -/
theorem c8_witness :
    ((audio_args ⟨none, some ⟨some "ac3", 6⟩⟩ = ["-c:a", "copy"] ↔
        audio_codec_name_of ⟨none, some ⟨some "ac3", 6⟩⟩ = some "aac" ∧
          audio_channels_of ⟨none, some ⟨some "ac3", 6⟩⟩ ≤ 2) ∧
      (¬ (audio_codec_name_of ⟨none, some ⟨some "ac3", 6⟩⟩ = some "aac" ∧
            audio_channels_of ⟨none, some ⟨some "ac3", 6⟩⟩ ≤ 2) →
        audio_args ⟨none, some ⟨some "ac3", 6⟩⟩ =
          ["-c:a", "aac",
           "-b:a", toString (128 *
              (min (if audio_channels_of (⟨none, some ⟨some "ac3", 6⟩⟩ : ProbeDict) = 0 then 2
                    else audio_channels_of ⟨none, some ⟨some "ac3", 6⟩⟩) 6).fdiv 2) ++ "k",
           "-ac", toString
              (min (if audio_channels_of (⟨none, some ⟨some "ac3", 6⟩⟩ : ProbeDict) = 0 then 2
                    else audio_channels_of ⟨none, some ⟨some "ac3", 6⟩⟩) 6)] ∧
        min (if audio_channels_of (⟨none, some ⟨some "ac3", 6⟩⟩ : ProbeDict) = 0 then 2
             else audio_channels_of ⟨none, some ⟨some "ac3", 6⟩⟩) 6 ≤ 6)) :=
  c8_audio_strategy ⟨none, some ⟨some "ac3", 6⟩⟩

/-! ## C9: probe failure is safe -/

/-- C9.  Every caught probe failure (process failure, non-zero exit,
unparsable output, timeout) yields the empty codecs dict instead of an
exception, and the classifier maps that empty dict to false, so a file
whose codecs could not be verified is never classified DIRECT. -/
theorem c9_probe_failure_safe (r : RawProbe) (path : String)
    (h : r.isFailure = true) :
    probe_media_file r = emptyProbe ∧
      can_direct_play path (probe_media_file r) = false := by
  have hp : probe_media_file r = emptyProbe := by
    cases r with
    | ok s => simp [RawProbe.isFailure] at h
    | calledProcessError => rfl
    | fileNotFound => rfl
    | jsonDecodeError => rfl
    | timeoutExpired => rfl
  refine ⟨hp, ?_⟩
  rw [hp]
  unfold can_direct_play
  split
  · simp
  · next h2 => exact absurd rfl h2

/-- C9 witness: a timed-out probe of an mp4 file yields the empty dict
and a TRANSCODE classification. -/
theorem c9_witness :
    RawProbe.timeoutExpired.isFailure = true ∧
      (probe_media_file RawProbe.timeoutExpired = emptyProbe ∧
        can_direct_play "/media/v.mp4" (probe_media_file RawProbe.timeoutExpired) = false) :=
  ⟨rfl, c9_probe_failure_safe RawProbe.timeoutExpired "/media/v.mp4" rfl⟩

/-! ## C10: supervision always unregisters -/

/-- C10.  Whatever way the supervised encoder run ends (exit code zero
or not, Popen failing with a missing executable, any other exception),
the finally block removes the entry for the asset from
active_processes, so a finished run never leaves the asset registered. -/
theorem c10_supervision_unregisters (reg : Registry) (movieId : Nat) (dir : String)
    (outcome : EncodeOutcome) :
    lookupKey movieId (run_ffmpeg_sync_registry reg movieId dir outcome) = none := by
  cases outcome with
  | exited code => exact lookupKey_eraseKey _ _
  | launchFailedNotFound => exact lookupKey_eraseKey _ _
  | errorAfterLaunch => exact lookupKey_eraseKey _ _

/-! ## C2: preemption tears the old session down before the new one
is created -/

/-- C2.  A stream request on the transcode path for an asset that
already has an active session (live process handle, output directory on
disk) emits, in this order: terminate of the old process with the
5 second grace-then-kill sequence, removal of the old directory, and
only then creation and registration of the new session directory.  The
resulting registry holds exactly one entry for the asset, the new
session. -/
theorem c2_preemption_order (reg : Registry) (env : StreamEnv) (p : StreamParams)
    (old : ProcInfo) (vp : String) (dur : Int) (crf : Int)
    (hold : lookupKey p.movieId reg = some old)
    (hproc : old.hasProcess = true)
    (hdir : env.oldDirExists old.dir = true)
    (hitem : env.item = some (vp, dur))
    (hsub : p.subtitleId = none)
    (hdirect : (!p.forceTranscode && p.preferDirect && (p.scale == "source") &&
      can_direct_play vp env.probe) = false)
    (hq : crfOf p.quality = some crf)
    (hs : (RESOLUTION_PRESETS.lookup p.scale).isSome = true) :
    (start_stream reg env p).trace =
      [Effect.terminateProc p.movieId 5, Effect.removeDir old.dir] ++
        sessionEffects p.movieId
          ("static/hls/" ++ toString p.movieId ++ "/" ++ env.sessionId) ∧
    lookupKey p.movieId (start_stream reg env p).registry =
      some ⟨false, "static/hls/" ++ toString p.movieId ++ "/" ++ env.sessionId⟩ ∧
    countKey p.movieId (start_stream reg env p).registry = 1 := by
  obtain ⟨th, hth⟩ := Option.isSome_iff_exists.mp hs
  have hpr : preempt reg env.oldDirExists p.movieId =
      (eraseKey p.movieId reg,
        [Effect.terminateProc p.movieId 5, Effect.removeDir old.dir]) := by
    unfold preempt
    rw [hold]
    simp [hproc, hdir]
  simp only [start_stream, hpr, hitem, hsub, hdirect, hq, hth]
  exact ⟨rfl, lookupKey_insertKey_self _ _ _, countKey_insertKey_self _ _ _⟩

/-- C2 witness: a concrete second request for asset 5 mid-transcode. -/
theorem c2_witness :
    (lookupKey 5 [(5, ⟨true, "static/hls/5/111"⟩)] =
        some (⟨true, "static/hls/5/111"⟩ : ProcInfo)) ∧
      ((start_stream [(5, ⟨true, "static/hls/5/111"⟩)]
          ⟨some ("/media/a.mkv", 60), none, false, emptyProbe, fun _ => true, "222"⟩
          ⟨5, 0, false, false, "high", "720p", none, false, "movie", "tk"⟩).trace =
        [Effect.terminateProc 5 5, Effect.removeDir "static/hls/5/111"] ++
          sessionEffects 5 ("static/hls/" ++ toString 5 ++ "/" ++ "222") ∧
      lookupKey 5 (start_stream [(5, ⟨true, "static/hls/5/111"⟩)]
          ⟨some ("/media/a.mkv", 60), none, false, emptyProbe, fun _ => true, "222"⟩
          ⟨5, 0, false, false, "high", "720p", none, false, "movie", "tk"⟩).registry =
        some ⟨false, "static/hls/" ++ toString 5 ++ "/" ++ "222"⟩ ∧
      countKey 5 (start_stream [(5, ⟨true, "static/hls/5/111"⟩)]
          ⟨some ("/media/a.mkv", 60), none, false, emptyProbe, fun _ => true, "222"⟩
          ⟨5, 0, false, false, "high", "720p", none, false, "movie", "tk"⟩).registry = 1) :=
  ⟨by decide,
    c2_preemption_order _ _ _ ⟨true, "static/hls/5/111"⟩ "/media/a.mkv" 60 18
      (by decide) rfl rfl rfl rfl (by decide) (by decide) (by decide)⟩

/-! ## C7: invalid quality and scale tokens -/

/-- C7 counterexample.  The quality token 35 is not in the preset
table, so by the claim the request must be rejected with no session
created; the source instead accepts any integer string as a literal CRF
value, creates and registers a session and answers with a playlist
URL. -/
theorem c7_counterexample :
    let o := start_stream []
      ⟨some ("/media/v.mkv", 3600), none, false, emptyProbe, fun _ => false, "1000"⟩
      ⟨9, 0, false, false, "35", "source", none, false, "movie", "tok"⟩
    QUALITY_PRESETS.lookup "35" = none ∧ o.resultIsHls = true ∧
      o.trace.countP Effect.isRegister = 1 ∧ o.trace.countP Effect.isMakeDir = 1 := by
  decide

/-- C7 as amended.  On the transcode path, a quality token that is
neither a preset name nor parseable as an integer, or a scale token
outside the resolution presets, is rejected synchronously with a 400
before any session artifact: no output directory is made, no registry
entry is created for the asset, and no encoder launch is scheduled. -/
theorem c7_invalid_params_rejected_before_session (reg : Registry) (env : StreamEnv)
    (p : StreamParams) (vp : String) (dur : Int)
    (hitem : env.item = some (vp, dur))
    (hsub : p.subtitleId = none)
    (hdirect : (!p.forceTranscode && p.preferDirect && (p.scale == "source") &&
      can_direct_play vp env.probe) = false)
    (hinvalid : crfOf p.quality = none ∨ RESOLUTION_PRESETS.lookup p.scale = none) :
    (start_stream reg env p).errorStatus = some 400 ∧
    (start_stream reg env p).trace.countP Effect.isMakeDir = 0 ∧
    (start_stream reg env p).trace.countP Effect.isRegister = 0 ∧
    (start_stream reg env p).trace.countP Effect.isLaunch = 0 ∧
    lookupKey p.movieId (start_stream reg env p).registry = none := by
  have hkey : start_stream reg env p =
      ⟨(preempt reg env.oldDirExists p.movieId).1,
        (preempt reg env.oldDirExists p.movieId).2, .error 400⟩ := by
    rcases hinvalid with hq | hsc
    · simp only [start_stream, hitem, hsub, hdirect, hq]
      rfl
    · cases hq2 : crfOf p.quality with
      | none =>
        simp only [start_stream, hitem, hsub, hdirect, hq2]
        rfl
      | some c =>
        simp only [start_stream, hitem, hsub, hdirect, hq2, hsc]
        rfl
  rw [hkey]
  refine ⟨rfl, ?_, ?_, ?_, ?_⟩
  · exact countP_preempt Effect.isMakeDir (fun _ _ => rfl) (fun _ => rfl) _ _ _
  · exact countP_preempt Effect.isRegister (fun _ _ => rfl) (fun _ => rfl) _ _ _
  · exact countP_preempt Effect.isLaunch (fun _ _ => rfl) (fun _ => rfl) _ _ _
  · exact lookupKey_preempt_self _ _ _

/-- C7 witness for the amended claim: a nonsense quality token on the
transcode path yields a 400 with no session artifacts. -/
theorem c7_witness :
    ((⟨some ("/media/a.avi", 50), none, false, emptyProbe, fun _ => false,
        "1"⟩ : StreamEnv).item = some ("/media/a.avi", 50)) ∧
    (crfOf "weird" = none ∨ RESOLUTION_PRESETS.lookup "source" = none) ∧
      ((start_stream []
          ⟨some ("/media/a.avi", 50), none, false, emptyProbe, fun _ => false, "1"⟩
          ⟨3, 0, false, false, "weird", "source", none, false, "movie", "t"⟩).errorStatus =
        some 400 ∧
      (start_stream []
          ⟨some ("/media/a.avi", 50), none, false, emptyProbe, fun _ => false, "1"⟩
          ⟨3, 0, false, false, "weird", "source", none, false, "movie", "t"⟩).trace.countP
        Effect.isMakeDir = 0 ∧
      (start_stream []
          ⟨some ("/media/a.avi", 50), none, false, emptyProbe, fun _ => false, "1"⟩
          ⟨3, 0, false, false, "weird", "source", none, false, "movie", "t"⟩).trace.countP
        Effect.isRegister = 0 ∧
      (start_stream []
          ⟨some ("/media/a.avi", 50), none, false, emptyProbe, fun _ => false, "1"⟩
          ⟨3, 0, false, false, "weird", "source", none, false, "movie", "t"⟩).trace.countP
        Effect.isLaunch = 0 ∧
      lookupKey 3 (start_stream []
          ⟨some ("/media/a.avi", 50), none, false, emptyProbe, fun _ => false, "1"⟩
          ⟨3, 0, false, false, "weird", "source", none, false, "movie", "t"⟩).registry =
        none) :=
  ⟨rfl, Or.inl (by decide),
    c7_invalid_params_rejected_before_session _ _ _ "/media/a.avi" 50
      rfl rfl (by decide) (Or.inl (by decide))⟩

/-! ## C1: no initial-buffer gate in the stream-start handler -/

/-- C1 counterexample.  By the claim, a stream-start request that
results in HLS mode waits for the first segments to be ready before
returning the manifest URL.  On this concrete transcode request the
handler performs no readiness wait at all (the trace holds no waitReady
effect) and still returns the playlist URL. -/
theorem c1_counterexample :
    let o := start_stream []
      ⟨some ("/media/v.mkv", 100), none, false, emptyProbe, fun _ => false, "1000"⟩
      ⟨7, 0, false, false, "medium", "source", none, false, "movie", "tok"⟩
    o.resultIsHls = true ∧ o.trace.countP Effect.isWaitReady = 0 := by
  decide

/-- C1 as amended.  The stream-start handler never performs a readiness
wait: its effect trace holds no waitReady effect in any branch, so an
HLS response returns the playlist URL immediately after scheduling the
encoder.  Readiness is enforced per segment at serve time instead: a
request for a .ts path whose poll run times out is answered 404. -/
theorem c1_amended_no_initial_gate :
    (∀ (reg : Registry) (env : StreamEnv) (p : StreamParams),
      (start_stream reg env p).trace.countP Effect.isWaitReady = 0) ∧
    (∀ (path : String) (obs : SegObs) (fuel : Nat),
      str_ends_with path ".ts" = true →
      wait_for_ready_run obs fuel 0 0 (-1) = none →
      hls_get_response path obs fuel = ServeOutcome.notReady404) := by
  constructor
  · intro reg env p
    have hpre := countP_preempt Effect.isWaitReady (fun _ _ => rfl) (fun _ => rfl)
      reg env.oldDirExists p.movieId
    have hses : ∀ (m : Nat) (d : String),
        (sessionEffects m d).countP Effect.isWaitReady = 0 := fun _ _ => rfl
    simp only [start_stream]
    split
    · exact hpre
    · split
      · exact hpre
      · split
        · exact hpre
        · split
          · exact hpre
          · split
            · exact hpre
            · simp [List.countP_append, hpre, hses]
  · intro path obs fuel hts htimeout
    simp [hls_get_response, hts, htimeout]

/-- C1 witness for the amended claim, at a concrete request and a
concrete timed-out segment poll. -/
theorem c1_amended_witness :
    ((start_stream []
        ⟨some ("/media/w.mkv", 40), none, false, emptyProbe, fun _ => false, "2"⟩
        ⟨8, 0, false, false, "low", "480p", none, false, "movie", "k"⟩).trace.countP
      Effect.isWaitReady = 0) ∧
    (str_ends_with "hls/8/2/stream3.ts" ".ts" = true) ∧
    (wait_for_ready_run (fun _ => none) 5 0 0 (-1) = none) ∧
    hls_get_response "hls/8/2/stream3.ts" (fun _ => none) 5 = ServeOutcome.notReady404 :=
  ⟨c1_amended_no_initial_gate.1 []
      ⟨some ("/media/w.mkv", 40), none, false, emptyProbe, fun _ => false, "2"⟩
      ⟨8, 0, false, false, "low", "480p", none, false, "movie", "k"⟩,
    by decide, by decide,
    c1_amended_no_initial_gate.2 "hls/8/2/stream3.ts" (fun _ => none) 5
      (by decide) (by decide)⟩

/-! ## C4: readiness needs a stable size -/

/-- Invariant of the polling loop: last_size equals the previously
observed size and a positive stable counter is backed by an earlier
confirming poll; a ready verdict therefore lands on a poll whose size
passed the threshold, matched the previously observed size, and had
already been confirmed once before. -/
theorem wfr_invariant (obs : SegObs) (fuel : Nat) :
    ∀ (i sc : Nat) (last : Int) (r : Nat),
      wait_for_ready_run obs fuel i sc last = some r →
      last = lastObsD obs i →
      (1 ≤ sc → ∃ t : Nat, last = (t : Int) ∧ MIN_SEG_BYTES ≤ t ∧
        ∃ j, j < i ∧ obs j = some t ∧ lastSomeBefore obs j = some t) →
      ∃ s : Nat, obs r = some s ∧ MIN_SEG_BYTES ≤ s ∧ lastSomeBefore obs r = some s ∧
        ∃ j, j < r ∧ obs j = some s ∧ lastSomeBefore obs j = some s := by
  induction fuel with
  | zero =>
    intro i sc last r hrun _ _
    simp [wait_for_ready_run] at hrun
  | succ n ih =>
    intro i sc last r hrun hlast hstab
    rw [wait_for_ready_run] at hrun
    cases hobs : obs i with
    | none =>
      simp only [hobs] at hrun
      refine ih (i + 1) sc last r hrun ?_ ?_
      · rw [hlast]
        simp [lastObsD, lastSomeBefore, hobs]
      · intro h1
        obtain ⟨t, h2, h3, j, hj, hoj, hlj⟩ := hstab h1
        exact ⟨t, h2, h3, j, by omega, hoj, hlj⟩
    | some size =>
      simp only [hobs] at hrun
      by_cases hcond : MIN_SEG_BYTES ≤ size ∧ (size : Int) = last
      · have hlsb : lastSomeBefore obs i = some size := by
          unfold lastObsD at hlast
          cases hls : lastSomeBefore obs i with
          | none =>
            simp only [hls] at hlast
            rw [hlast] at hcond
            exact absurd hcond.2 (by omega)
          | some u =>
            simp only [hls] at hlast
            have h2 : (size : Int) = (u : Int) := by rw [hcond.2, hlast]
            have h3 : size = u := by exact_mod_cast h2
            rw [h3]
        rw [if_pos hcond] at hrun
        by_cases hsc2 : STABILITY_CHECKS ≤ sc + 1
        · rw [if_pos hsc2] at hrun
          injection hrun with hir
          subst hir
          have hsc1 : 1 ≤ sc := by
            simp only [STABILITY_CHECKS] at hsc2
            omega
          obtain ⟨t, hlt, hmt, j, hj, hoj, hlj⟩ := hstab hsc1
          have hts : t = size := by
            have h2 := hcond.2
            rw [hlt] at h2
            exact_mod_cast h2.symm
          subst hts
          exact ⟨t, hobs, hcond.1, hlsb, j, hj, hoj, hlj⟩
        · rw [if_neg hsc2] at hrun
          refine ih (i + 1) (sc + 1) (size : Int) r hrun ?_ ?_
          · simp [lastObsD, lastSomeBefore, hobs]
          · intro _
            exact ⟨size, rfl, hcond.1, i, by omega, hobs, hlsb⟩
      · rw [if_neg hcond] at hrun
        refine ih (i + 1) 0 (size : Int) r hrun ?_ ?_
        · simp [lastObsD, lastSomeBefore, hobs]
        · intro h1
          exact absurd h1 (by omega)

/-- C4.  Starting from the initial loop state, a run that reports the
segment ready at poll r observed a size of at least MIN_SEG_BYTES there
which equals the size observed at the immediately preceding poll (in
particular, the size did not increase between those two consecutive
polls), and an earlier poll j already confirmed that same size against
its own preceding observation, giving the two consecutive confirming
polls of STABILITY_CHECKS = 2. -/
theorem c4_ready_requires_stable_size (obs : SegObs) (fuel r : Nat)
    (h : wait_for_ready_run obs fuel 0 0 (-1) = some r) :
    ∃ s : Nat, obs r = some s ∧ MIN_SEG_BYTES ≤ s ∧
      lastSomeBefore obs r = some s ∧
      (∀ t, obs (r - 1) = some t → t = s) ∧
      ∃ j, j < r ∧ obs j = some s ∧ lastSomeBefore obs j = some s := by
  obtain ⟨s, hs1, hs2, hs3, j, hj, hj1, hj2⟩ :=
    wfr_invariant obs fuel 0 0 (-1) r h rfl (fun h1 => absurd h1 (by omega))
  refine ⟨s, hs1, hs2, hs3, ?_, j, hj, hj1, hj2⟩
  intro t ht
  have hr : r - 1 + 1 = r := by omega
  have h2 : lastSomeBefore obs (r - 1 + 1) = some s := by rw [hr]; exact hs3
  simp only [lastSomeBefore, ht, Option.some.injEq] at h2
  exact h2

/-- C4 witness: a constant 40000-byte observation is reported ready at
poll 2, with the stability conclusions instantiated there. -/
theorem c4_witness :
    (wait_for_ready_run (fun _ => some 40000) 3 0 0 (-1) = some 2) ∧
    ∃ s : Nat, (fun _ => some 40000 : SegObs) 2 = some s ∧ MIN_SEG_BYTES ≤ s ∧
      lastSomeBefore (fun _ => some 40000) 2 = some s ∧
      (∀ t, (fun _ => some 40000 : SegObs) (2 - 1) = some t → t = s) ∧
      ∃ j, j < 2 ∧ (fun _ => some 40000 : SegObs) j = some s ∧
        lastSomeBefore (fun _ => some 40000) j = some s :=
  ⟨by decide, c4_ready_requires_stable_size (fun _ => some 40000) 3 2 (by decide)⟩

/-! ## C5: manifest segment count, last duration, token -/

/-- Bounds of the ceiling division behind num_segments: for positive
duration and segment length, the count is positive and brackets the
duration within one segment length. -/
theorem num_segments_bounds (D L : Int) (hD : 0 < D) (hL : 0 < L) :
    1 ≤ num_segments D L ∧ (num_segments D L - 1) * L < D ∧ D ≤ num_segments D L * L := by
  unfold num_segments
  have hmod := Int.ediv_add_emod (D + L - 1) L
  have hr0 : 0 ≤ (D + L - 1) % L := Int.emod_nonneg _ (by omega)
  have hrL : (D + L - 1) % L < L := Int.emod_lt_of_pos _ hL
  set N := (D + L - 1) / L with hN
  have hcomm : N * L = L * N := mul_comm _ _
  have hle : D ≤ N * L := by linarith
  have hlt : (N - 1) * L < D := by
    have h2 : (N - 1) * L = N * L - L := by ring
    linarith
  have h1 : 1 ≤ N := by
    by_contra hcon
    have h2 : N ≤ 0 := by omega
    have h3 : N * L ≤ 0 := mul_nonpos_iff.mpr (Or.inr ⟨h2, le_of_lt hL⟩)
    linarith
  exact ⟨h1, hlt, hle⟩

/-- Closed form of the manifest loop when every produced index keeps a
positive remainder (no early break): the entries for indices
i, i+1, ..., i+n-1. -/
theorem manifestSegLoop_eq (D L : Int) (token : String) (hL : 0 < L) :
    ∀ (n i : Nat), (∀ j : Nat, i ≤ j → j < i + n → 0 < D - (j : Int) * L) →
      manifestSegLoop D L token n i =
        (List.range' i n).map (fun j =>
          ⟨min L (D - (j : Int) * L), "stream" ++ toString j ++ ".ts?token=" ++ token⟩) := by
  intro n
  induction n with
  | zero => intro i _; rfl
  | succ m ih =>
    intro i hpos
    rw [manifestSegLoop]
    have h0 : 0 < D - ((i : Nat) : Int) * L := hpos i (le_refl i) (by omega)
    have hd : ¬ (min L (D - ((i : Nat) : Int) * L) ≤ 0) := by
      have h2 : 0 < min L (D - ((i : Nat) : Int) * L) := lt_min hL h0
      omega
    rw [if_neg hd]
    rw [List.range'_succ, List.map_cons]
    rw [ih (i + 1) (fun j hj1 hj2 => hpos j (by omega) (by omega))]

/-- C5.  For every positive duration D and segment length L, the
generated manifest lists exactly ceil(D / L) segment entries, the last
declared duration is D - (count - 1) * L, and every entry URI is a
segment reference carrying the caller token as its query parameter. -/
theorem c5_manifest_segments (D L : Int) (token : String) (hD : 0 < D) (hL : 0 < L) :
    (generate_vod_manifest_segments D L token).length = (num_segments D L).toNat ∧
    ((generate_vod_manifest_segments D L token).getLast?).map SegEntry.duration =
      some (D - (((generate_vod_manifest_segments D L token).length : Int) - 1) * L) ∧
    ∀ e ∈ generate_vod_manifest_segments D L token,
      ∃ i : Nat, e.uri = "stream" ++ toString i ++ ".ts?token=" ++ token := by
  obtain ⟨hN1, hNlt, hNle⟩ := num_segments_bounds D L hD hL
  have hNtoNat : ((num_segments D L).toNat : Int) = num_segments D L :=
    Int.toNat_of_nonneg (by omega)
  have hpos : ∀ j : Nat, 0 ≤ j → j < 0 + (num_segments D L).toNat →
      0 < D - (j : Int) * L := by
    intro j _ hj
    have hj1 : (j : Int) ≤ num_segments D L - 1 := by omega
    have h2 : (j : Int) * L ≤ (num_segments D L - 1) * L :=
      mul_le_mul_of_nonneg_right hj1 (le_of_lt hL)
    linarith
  have hgen : generate_vod_manifest_segments D L token =
      (List.range' 0 (num_segments D L).toNat).map (fun j =>
        ⟨min L (D - (j : Int) * L), "stream" ++ toString j ++ ".ts?token=" ++ token⟩) := by
    unfold generate_vod_manifest_segments
    exact manifestSegLoop_eq D L token hL (num_segments D L).toNat 0 hpos
  have hlen : (generate_vod_manifest_segments D L token).length = (num_segments D L).toNat := by
    rw [hgen]
    simp
  refine ⟨hlen, ?_, ?_⟩
  · obtain ⟨m, hm⟩ : ∃ m, (num_segments D L).toNat = m + 1 := by
      refine ⟨(num_segments D L).toNat - 1, ?_⟩
      omega
    have hmInt : ((m : Int)) = num_segments D L - 1 := by omega
    rw [hlen, hm, hgen, hm, List.range'_concat, List.map_append, List.map_singleton,
      List.getLast?_concat]
    have hclamp : min L (D - (m : Int) * L) = D - (num_segments D L - 1) * L := by
      rw [hmInt]
      have h4 : D - (num_segments D L - 1) * L ≤ L := by
        have h5 : (num_segments D L - 1) * L = num_segments D L * L - L := by ring
        linarith
      exact min_eq_right h4
    simp only [Option.map_some']
    have h7 : (0 + 1 * m : Nat) = m := by omega
    rw [h7, hclamp]
    have h6 : ((m + 1 : Nat) : Int) - 1 = num_segments D L - 1 := by omega
    rw [h6]
  · intro e he
    rw [hgen] at he
    simp only [List.mem_map] at he
    obtain ⟨j, _, hje⟩ := he
    exact ⟨j, by rw [← hje]⟩

/-- C5 witness: a 25-second asset at the 10-second segment length gives
3 entries, a final declared duration of 5, and token-carrying URIs. -/
theorem c5_witness :
    ((0 : Int) < 25) ∧ ((0 : Int) < 10) ∧
    ((generate_vod_manifest_segments 25 10 "t").length = (num_segments 25 10).toNat ∧
    ((generate_vod_manifest_segments 25 10 "t").getLast?).map SegEntry.duration =
      some (25 - (((generate_vod_manifest_segments 25 10 "t").length : Int) - 1) * 10) ∧
    ∀ e ∈ generate_vod_manifest_segments 25 10 "t",
      ∃ i : Nat, e.uri = "stream" ++ toString i ++ ".ts?token=" ++ "t") :=
  ⟨by decide, by decide, c5_manifest_segments 25 10 "t" (by decide) (by decide)⟩

/-! ## C6: byte-range validation and streaming -/

/-- Closed form of the chunked read loop: with enough fuel and content,
it yields exactly the requested span. -/
theorem range_streamer_loop_eq (content : List Nat) :
    ∀ (fuel pos rem : Nat), rem ≤ fuel → pos + rem ≤ content.length →
      range_streamer_loop content fuel pos rem = (content.drop pos).take rem := by
  intro fuel
  induction fuel with
  | zero =>
    intro pos rem h1 _
    have h0 : rem = 0 := by omega
    subst h0
    simp [range_streamer_loop]
  | succ n ih =>
    intro pos rem h1 h2
    rw [range_streamer_loop]
    by_cases h0 : rem = 0
    · subst h0
      simp
    · rw [if_neg h0]
      have hdl : (content.drop pos).length = content.length - pos := List.length_drop _ _
      have hlen : ((content.drop pos).take (min (1024 * 1024 * 2) rem)).length =
          min (1024 * 1024 * 2) rem := by
        rw [List.length_take, hdl]
        omega
      have hne : ¬ (((content.drop pos).take (min (1024 * 1024 * 2) rem)).length = 0) := by
        rw [hlen]
        omega
      rw [if_neg hne, hlen]
      rw [ih (pos + min (1024 * 1024 * 2) rem) (rem - min (1024 * 1024 * 2) rem)
        (by omega) (by omega)]
      have hdd : content.drop (pos + min (1024 * 1024 * 2) rem) =
          (content.drop pos).drop (min (1024 * 1024 * 2) rem) := by
        rw [List.drop_drop, Nat.add_comm]
      rw [hdd]
      have hsplit : rem = min (1024 * 1024 * 2) rem + (rem - min (1024 * 1024 * 2) rem) := by
        omega
      conv_rhs => rw [hsplit, List.take_add]

/-- range_streamer yields the inclusive span start..e of the file, of
length e - start + 1, whenever the span lies inside the file. -/
theorem range_streamer_eq (content : List Nat) (start e : Nat)
    (hse : start ≤ e) (hin : e + 1 ≤ content.length) :
    range_streamer content start e = (content.drop start).take (e + 1 - start) ∧
      (range_streamer content start e).length = e + 1 - start := by
  have h := range_streamer_loop_eq content (e + 1 - start) start (e + 1 - start)
    (le_refl _) (by omega)
  have h2 : range_streamer content start e =
      (content.drop start).take (e + 1 - start) := h
  refine ⟨h2, ?_⟩
  rw [h2, List.length_take, List.length_drop]
  omega

/-- C6 counterexample.  On a 1000-byte file, the request
bytes=100-5000 fails the validation start ≤ end < size stated by the
claim (5000 is not below 1000), so by the claim the response must be
416; the source clamps the end to 999 and answers 206. -/
theorem c6_counterexample :
    ¬ ((5000 : Int) < 1000) ∧
      (direct_range_response (List.replicate 1000 0) 100 (some 5000)).is206 = true :=
  ⟨by decide, by decide⟩

/-- C6 as amended.  The requested end is first clamped to size - 1;
writing e2 for the clamped end, the server responds 416 (with
Content-Range bytes */size) exactly when start exceeds e2 - in
particular when start is at or past the file size - and otherwise
responds 206 with Content-Range bytes start-e2/size, a declared length
of e2 - start + 1, and a body of exactly those e2 - start + 1 bytes of
the file. -/
theorem c6_range_clamped (content : List Nat) (start e : Nat)
    (hsize : 0 < content.length) :
    (min e (content.length - 1) < start →
      direct_range_response content (start : Int) (some (e : Int)) =
        RangeResponse.r416 ("bytes */" ++ toString ((content.length : Int)))) ∧
    (start ≤ min e (content.length - 1) →
      direct_range_response content (start : Int) (some (e : Int)) =
        RangeResponse.r206
          ("bytes " ++ toString ((start : Int)) ++ "-" ++
            toString (((min e (content.length - 1) : Nat) : Int)) ++ "/" ++
            toString ((content.length : Int)))
          (min e (content.length - 1) - start + 1)
          ((content.drop start).take (min e (content.length - 1) - start + 1)) ∧
      ((content.drop start).take (min e (content.length - 1) - start + 1)).length =
        min e (content.length - 1) - start + 1) := by
  have hm : min (e : Int) ((content.length : Int) - 1) =
      ((min e (content.length - 1) : Nat) : Int) := by
    omega
  constructor
  · intro hlt
    simp only [direct_range_response]
    rw [if_pos]
    exact Or.inl (by omega)
  · intro hle
    have hcond : ¬ ((start : Int) > min (e : Int) ((content.length : Int) - 1) ∨
        (start : Int) < 0 ∨
        min (e : Int) ((content.length : Int) - 1) ≥ (content.length : Int)) := by
      push_neg
      refine ⟨by omega, by omega, by omega⟩
    simp only [direct_range_response]
    rw [if_neg hcond]
    have hspan := range_streamer_eq content start (min e (content.length - 1)) hle (by omega)
    have htn1 : ((start : Int)).toNat = start := Int.toNat_natCast start
    have htn2 : (min (e : Int) ((content.length : Int) - 1)).toNat =
        min e (content.length - 1) := by
      omega
    have hlen2 : ((((min e (content.length - 1) : Nat) : Int)) - (start : Int) + 1).toNat =
        min e (content.length - 1) - start + 1 := by
      omega
    have htake : min e (content.length - 1) + 1 - start =
        min e (content.length - 1) - start + 1 := by
      omega
    rw [hm, htn1, hlen2]
    have hbody : range_streamer content start
        ((((min e (content.length - 1) : Nat) : Int)).toNat) =
        (content.drop start).take (min e (content.length - 1) - start + 1) := by
      rw [Int.toNat_natCast, hspan.1, htake]
    rw [hbody]
    refine ⟨rfl, ?_⟩
    rw [← htake, ← hspan.1, hspan.2]

/-- C6 witness: the round-trip of the claim, bytes=100-199 on a
1000-byte file: 206, Content-Range bytes 100-199/1000, 100 bytes. -/
theorem c6_witness :
    (0 < (List.replicate 1000 (0 : Nat)).length) ∧
    ((min 199 ((List.replicate 1000 (0 : Nat)).length - 1) < 100 →
      direct_range_response (List.replicate 1000 (0 : Nat)) ((100 : Nat) : Int)
          (some ((199 : Nat) : Int)) =
        RangeResponse.r416
          ("bytes */" ++ toString (((List.replicate 1000 (0 : Nat)).length : Int)))) ∧
    (100 ≤ min 199 ((List.replicate 1000 (0 : Nat)).length - 1) →
      direct_range_response (List.replicate 1000 (0 : Nat)) ((100 : Nat) : Int)
          (some ((199 : Nat) : Int)) =
        RangeResponse.r206
          ("bytes " ++ toString (((100 : Nat) : Int)) ++ "-" ++
            toString (((min 199 ((List.replicate 1000 (0 : Nat)).length - 1) : Nat) : Int)) ++
            "/" ++ toString (((List.replicate 1000 (0 : Nat)).length : Int)))
          (min 199 ((List.replicate 1000 (0 : Nat)).length - 1) - 100 + 1)
          (((List.replicate 1000 (0 : Nat)).drop 100).take
            (min 199 ((List.replicate 1000 (0 : Nat)).length - 1) - 100 + 1)) ∧
      (((List.replicate 1000 (0 : Nat)).drop 100).take
          (min 199 ((List.replicate 1000 (0 : Nat)).length - 1) - 100 + 1)).length =
        min 199 ((List.replicate 1000 (0 : Nat)).length - 1) - 100 + 1)) :=
  ⟨by decide, c6_range_clamped (List.replicate 1000 0) 100 199 (by decide)⟩
